import Mathlib

/-!
# Shallow embedding of the `scraping.py` crawler

This file embeds the crawl-control logic of the repository's single source
file `src/scraping.py` into Lean 4:

* `pyStartsWith`, `pyStrip`, `splitOnCharAux`, `splitOnSchemeSepAux` and
  `splitlines` are executable models of the Python string primitives the
  source uses (`str.startswith`, `str.strip`, `str.split`,
  `str.splitlines`), defined structurally over the character data so that
  concrete instances evaluate inside the kernel.
* `urlparse` / `urljoin` model the `urllib.parse` library calls the source
  makes, restricted to the hierarchical `scheme://netloc/path` URLs the
  crawler works with.
* `fetch_robots_txt` embeds the robots.txt fetcher with its per-origin
  cache; the network is abstracted as a function
  `net : String → Option String` (`none` = `requests.exceptions.RequestException`
  or a non-2xx status raised by `raise_for_status`).  The embedding also
  returns the number of network GETs the call issued (0 or 1) so that the
  caching behaviour can be stated.
* `is_allowed_by_robots` embeds the line-by-line robots parser
  (`robotsParseLoop`) and the allow-before-disallow prefix decision
  (`robotsDecision`).
* `scrape_links` embeds the link extractor: the HTTP fetch plus
  BeautifulSoup href extraction are abstracted as
  `fetchPage : String → Option (List String)` (`none` = request failure,
  `some hrefs` = the raw `href` attribute values found on the page); the
  `urljoin`-and-same-netloc filter loop is embedded faithfully.
* `crawlFuel` embeds the recursive `crawl_site` with its
  `for link in links` loop as a `foldl`; one unit of fuel is one level of
  recursion, and `crawl_site` instantiates the fuel at a provably
  sufficient value (see the fuel-independence theorems below).

State that is global in Python (`visited_urls`, `robots_cache`, the
`url_depth_list` accumulator) is threaded explicitly through `CrawlState`.
Depths are `Int` because Python integers are unbounded and the code never
rejects a negative `depth`.
-/

/-- Python `s.startswith(p)`. -/
def pyStartsWith (s p : String) : Bool :=
  p.data.isPrefixOf s.data

/-- Python `s.strip()`: drop leading and trailing whitespace. -/
def pyStrip (s : String) : String :=
  (((s.data.dropWhile Char.isWhitespace).reverse.dropWhile Char.isWhitespace).reverse).asString

/-- Split a character list at every occurrence of the character `sep`
(Python `s.split(sep)` for a one-character separator; never returns an
empty list of segments). -/
def splitOnCharAux (sep : Char) : List Char → List (List Char)
  | [] => [[]]
  | c :: rest =>
    if c = sep then [] :: splitOnCharAux sep rest
    else
      match splitOnCharAux sep rest with
      | [] => [[c]]
      | seg :: segs => (c :: seg) :: segs

/-- Python `s.split(sep)` for a one-character separator `sep`. -/
def pySplitChar (s : String) (sep : Char) : List String :=
  (splitOnCharAux sep s.data).map List.asString

/-- Split a character list at every occurrence of the scheme separator
`://`, leftmost-first (Python `s.split("://")`). -/
def splitOnSchemeSepAux : List Char → List (List Char)
  | ':' :: '/' :: '/' :: rest => [] :: splitOnSchemeSepAux rest
  | c :: rest =>
    match splitOnSchemeSepAux rest with
    | [] => [[c]]
    | seg :: segs => (c :: seg) :: segs
  | [] => [[]]

/-- Split a character list at line terminators `\r\n`, `\r`, `\n`
(Python `s.splitlines()`; this model keeps a final empty segment after a
trailing terminator, which the robots parser ignores since a blank line
matches none of its branches). -/
def splitlinesAux : List Char → List (List Char)
  | '\r' :: '\n' :: rest => [] :: splitlinesAux rest
  | '\r' :: rest => [] :: splitlinesAux rest
  | '\n' :: rest => [] :: splitlinesAux rest
  | c :: rest =>
    match splitlinesAux rest with
    | [] => [[c]]
    | seg :: segs => (c :: seg) :: segs
  | [] => [[]]

/-- Python `robots_txt.splitlines()`. -/
def splitlines (s : String) : List String :=
  (splitlinesAux s.data).map List.asString

/-- Result of `urllib.parse.urlparse`, restricted to the components the
source reads: `scheme`, `netloc` and `path`. -/
structure UrlParts where
  scheme : String
  netloc : String
  path : String
deriving DecidableEq, Repr

/-- Modelled library function `urllib.parse.urlparse` for hierarchical
URLs: `scheme://netloc/path` splits into its three components; a string
without `://` has empty scheme and netloc and is all path. -/
def urlparse (url : String) : UrlParts :=
  match (splitOnSchemeSepAux url.data).map List.asString with
  | scheme :: r :: rs =>
    let after := String.intercalate "://" (r :: rs)
    match pySplitChar after '/' with
    | [] => ⟨scheme, "", ""⟩
    | [netloc] => ⟨scheme, netloc, ""⟩
    | netloc :: ps => ⟨scheme, netloc, "/" ++ String.intercalate "/" ps⟩
  | _ => ⟨"", "", url⟩

/-- The directory part of a path, up to and including the last `/`
(used to resolve relative references in `urljoin`). -/
def dirOf (path : String) : String :=
  match (pySplitChar path '/').dropLast with
  | [] => "/"
  | ps => String.intercalate "/" ps ++ "/"

/-- Modelled library function `urllib.parse.urljoin`: an absolute
reference (containing `://`) replaces the base, a rooted reference keeps
the base's scheme and netloc, an empty reference returns the base, and any
other relative reference resolves against the base path's directory. -/
def urljoin (base href : String) : String :=
  if 2 ≤ (splitOnSchemeSepAux href.data).length then href
  else if href = "" then base
  else
    let p := urlparse base
    if pyStartsWith href "/" then p.scheme ++ "://" ++ p.netloc ++ href
    else p.scheme ++ "://" ++ p.netloc ++ dirOf p.path ++ href

/-- The origin string `f"{parsed_url.scheme}://{parsed_url.netloc}"` that
`fetch_robots_txt` uses as its cache key. -/
def baseUrlOf (url : String) : String :=
  (urlparse url).scheme ++ "://" ++ (urlparse url).netloc

/-- Linear lookup in the robots cache (models `base_url in robots_cache` /
`robots_cache[base_url]`). -/
def cacheLookup : List (String × String) → String → Option String
  | [], _ => none
  | (k, v) :: rest, key => if k = key then some v else cacheLookup rest key

/-- Embeds `fetch_robots_txt(url)`.  `net` maps an origin to the body of a
successful GET of `{origin}/robots.txt`, or `none` on request failure /
non-2xx.  Returns the text the Python function returns, the robots cache
after the call, and the number of network GETs issued (0 on a cache hit,
1 otherwise).  On failure the function returns `""` and — as in the
source — does NOT store anything in the cache. -/
def fetch_robots_txt (net : String → Option String)
    (cache : List (String × String)) (url : String) :
    String × List (String × String) × Nat :=
  let base_url := baseUrlOf url
  match cacheLookup cache base_url with
  | some txt => (txt, cache, 0)
  | none =>
    match net base_url with
    | some robots_txt => (robots_txt, (base_url, robots_txt) :: cache, 1)
    | none => ("", cache, 1)

/-- The value extraction `line.split(":")[1].strip()` — the text strictly
between the first and the second colon of the line, stripped.  (`getD 1 ""`
is total; under the `startswith("Disallow:")` / `startswith("Allow:")`
guards the index always exists.) -/
def lineValue (line : String) : String :=
  pyStrip ((pySplitChar line ':').getD 1 "")

/-- The parsing loop of `is_allowed_by_robots`: walks the lines carrying
the `user_agent_allowed` flag and the accumulated `disallowed_paths` and
`allowed_paths` lists, exactly as the Python
`for line in robots_txt.splitlines()` loop does (each line is stripped
first). -/
def robotsParseLoop : List String → Bool → List String → List String →
    Bool × List String × List String
  | [], ua, dis, al => (ua, dis, al)
  | line :: rest, ua, dis, al =>
    let l := pyStrip line
    if pyStartsWith l "User-agent: *" then robotsParseLoop rest true dis al
    else if pyStartsWith l "Disallow:" && ua then
      robotsParseLoop rest ua (dis ++ [lineValue l]) al
    else if pyStartsWith l "Allow:" && ua then
      robotsParseLoop rest ua dis (al ++ [lineValue l])
    else robotsParseLoop rest ua dis al

/-- The allow/deny decision of `is_allowed_by_robots` given the collected
prefix lists: any matching allow-prefix allows, otherwise any matching
disallow-prefix denies, otherwise allow. -/
def robotsDecision (path : String) (disallowed_paths allowed_paths : List String) : Bool :=
  if allowed_paths.any (fun allowed => pyStartsWith path allowed) then true
  else if disallowed_paths.any (fun disallowed => pyStartsWith path disallowed) then false
  else true

/-- Embeds `is_allowed_by_robots(url, robots_txt)`. -/
def is_allowed_by_robots (url : String) (robots_txt : String) : Bool :=
  let path := (urlparse url).path
  let parsed := robotsParseLoop (splitlines robots_txt) false [] []
  robotsDecision path parsed.2.1 parsed.2.2

/-- External effects of one crawl run: `robotsFetch` is the network result
of GETting `{origin}/robots.txt` for an origin, `fetchPage` is the result
of GETting a page and extracting its raw `href` attribute values with
BeautifulSoup (`none` = request failure / non-2xx). -/
structure Env where
  robotsFetch : String → Option String
  fetchPage : String → Option (List String)

/-- Embeds `scrape_links(url)`: on fetch failure return `[]`; otherwise
resolve each href against the page URL with `urljoin` and keep exactly
those whose netloc equals the page URL's netloc. -/
def scrape_links (env : Env) (url : String) : List String :=
  match env.fetchPage url with
  | none => []
  | some hrefs =>
    (hrefs.map (fun href => urljoin url href)).filter
      (fun full_url => (urlparse full_url).netloc == (urlparse url).netloc)

/-- The mutable state `crawl_site` works on: the global `visited_urls`
set, the `url_depth_list` accumulator, and the global `robots_cache`. -/
structure CrawlState where
  visited : List String
  urlDepthList : List (String × Int)
  cache : List (String × String)
deriving DecidableEq, Repr

/-- The state at the start of a run (`visited_urls = set()`,
`robots_cache = {}`, `url_depth_list = []`). -/
def initState : CrawlState := ⟨[], [], []⟩

/-- Fueled embedding of `crawl_site(url, depth, current_depth, ...)`.
One unit of fuel is one level of recursion; `crawl_site` below supplies
provably sufficient fuel.  The body mirrors the source line by line:
entry checks against `visited_urls` and the depth bound, insertion into
`visited_urls`, the `(url, current_depth)` record, the robots fetch and
check (`if robots_txt and not is_allowed_by_robots(...)`), link scraping,
and the `for link in links: if link not in visited_urls: crawl_site(...)`
loop threading the state left to right. -/
def crawlFuel (env : Env) : Nat → CrawlState → String → Int → Int → CrawlState
  | 0, st, _, _, _ => st
  | fuel + 1, st, url, depth, current_depth =>
    if url ∈ st.visited then st
    else if depth < current_depth then st
    else
      let st1 : CrawlState :=
        ⟨url :: st.visited, st.urlDepthList ++ [(url, current_depth)], st.cache⟩
      let r := fetch_robots_txt env.robotsFetch st1.cache url
      let st2 : CrawlState := ⟨st1.visited, st1.urlDepthList, r.2.1⟩
      if r.1 ≠ "" ∧ is_allowed_by_robots url r.1 = false then st2
      else
        (scrape_links env url).foldl
          (fun acc link =>
            if link ∈ acc.visited then acc
            else crawlFuel env fuel acc link depth (current_depth + 1))
          st2

/-- Embeds a call `crawl_site(url, depth, current_depth, url_depth_list)`:
`crawlFuel` at a sufficient fuel (one more unit than can ever be consumed,
as the fuel-independence theorems below prove). -/
def crawl_site (env : Env) (st : CrawlState) (url : String) (depth : Int)
    (current_depth : Int := 0) : CrawlState :=
  crawlFuel env ((depth + 1 - current_depth).toNat + 1) st url depth current_depth

/-- What a Disallow line contributes once the wildcard group has been
seen: its `lineValue`, unless the line is itself a `User-agent: *` line
(the parser's branch order; no line can start with both literals). -/
def disallowValue (line : String) : Option String :=
  let l := pyStrip line
  if pyStartsWith l "User-agent: *" then none
  else if pyStartsWith l "Disallow:" then some (lineValue l)
  else none

/-- What an Allow line contributes once the wildcard group has been seen
(after the `User-agent: *` and `Disallow:` branches have not fired). -/
def allowValue (line : String) : Option String :=
  let l := pyStrip line
  if pyStartsWith l "User-agent: *" then none
  else if pyStartsWith l "Disallow:" then none
  else if pyStartsWith l "Allow:" then some (lineValue l)
  else none

/-- Modelled from the spec's words: "the substring after the first colon"
of a line (everything past the first `:`, later colons included).  Used to
compare the spec's description of the collected rule values with what the
code's `line.split(":")[1]` actually collects. -/
def afterFirstColon (l : String) : String :=
  String.intercalate ":" ((pySplitChar l ':').drop 1)

/-- A two-page cyclic site: `http://h/a` links to `http://h/b` and back;
no robots.txt anywhere. -/
def envCyc : Env :=
  ⟨fun _ => none,
   fun u =>
     if u = "http://h/a" then some ["http://h/b"]
     else if u = "http://h/b" then some ["http://h/a"] else none⟩

/-- A site whose robots.txt disallows `/p` for every agent; pages have no
links. -/
def envDeny : Env :=
  ⟨fun _ => some "User-agent: *\nDisallow: /p", fun _ => some []⟩

/-- A page at `https://example.com/` holding one absolute link with the
same host but the `http` scheme. -/
def envX : Env :=
  ⟨fun _ => none,
   fun u => if u = "https://example.com/" then some ["http://example.com/x"] else none⟩

/-- A network on which every robots.txt GET fails. -/
def netFail : String → Option String := fun _ => none

/-- A network on which the origin `http://h` serves a robots.txt body. -/
def netOk : String → Option String :=
  fun b => if b = "http://h" then some "User-agent: *" else none

/-! ## Basic facts about the crawl step -/

/-- With no fuel the crawl returns the state unchanged. -/
theorem crawlFuel_zero (env : Env) (st : CrawlState) (url : String) (depth c : Int) :
    crawlFuel env 0 st url depth c = st := rfl

/-- An already-visited URL is rejected by the entry check: the state is
returned unchanged. -/
theorem crawlFuel_visited (env : Env) (fuel : Nat) (st : CrawlState) (url : String)
    (depth c : Int) (h : url ∈ st.visited) :
    crawlFuel env fuel st url depth c = st := by
  cases fuel with
  | zero => rfl
  | succ n => simp [crawlFuel, h]

/-- A call past the depth bound (`current_depth > depth`) is rejected by
the depth check: the state is returned unchanged. -/
theorem crawlFuel_depth_reject (env : Env) (fuel : Nat) (st : CrawlState) (url : String)
    (depth c : Int) (h : depth < c) :
    crawlFuel env fuel st url depth c = st := by
  cases fuel with
  | zero => rfl
  | succ n =>
    by_cases hv : url ∈ st.visited
    · simp [crawlFuel, hv]
    · simp [crawlFuel, hv, h]

/-- The link loop at a depth past the bound leaves the state unchanged:
every recursive call inside it is rejected by the depth check. -/
theorem foldl_depth_reject (env : Env) (fuel : Nat) (depth c : Int) (h : depth < c) :
    ∀ (links : List String) (st : CrawlState),
      links.foldl
        (fun acc link => if link ∈ acc.visited then acc
                         else crawlFuel env fuel acc link depth c) st = st := by
  intro links
  induction links with
  | nil => intro st; rfl
  | cons l rest ih =>
    intro st
    have hbody : (if l ∈ st.visited then st else crawlFuel env fuel st l depth c) = st := by
      by_cases hv : l ∈ st.visited
      · simp [hv]
      · simp [hv, crawlFuel_depth_reject env fuel st l depth c h]
    simpa [List.foldl_cons, hbody] using ih st

/-! ## The crawl-state invariant and its preservation -/

/-- The crawl-state invariant: the visited set has no duplicates, no URL
is recorded twice in `url_depth_list`, and every recorded URL is in the
visited set. -/
def CrawlInv (st : CrawlState) : Prop :=
  st.visited.Nodup ∧ (st.urlDepthList.map Prod.fst).Nodup ∧
    ∀ p ∈ st.urlDepthList, p.1 ∈ st.visited

/-- What one crawl call does to the state, abstractly: it preserves the
invariant, only grows the visited set, and only appends to the record
list. -/
def StepOK (st st' : CrawlState) : Prop :=
  (CrawlInv st → CrawlInv st') ∧ st.visited ⊆ st'.visited ∧
    ∃ t, st'.urlDepthList = st.urlDepthList ++ t

theorem StepOK.refl (st : CrawlState) : StepOK st st :=
  ⟨id, fun _ h => h, [], by simp⟩

theorem StepOK.trans {a b c : CrawlState} (h₁ : StepOK a b) (h₂ : StepOK b c) :
    StepOK a c := by
  obtain ⟨hi₁, hv₁, t₁, ht₁⟩ := h₁
  obtain ⟨hi₂, hv₂, t₂, ht₂⟩ := h₂
  exact ⟨fun h => hi₂ (hi₁ h), fun x hx => hv₂ (hv₁ hx), t₁ ++ t₂, by rw [ht₂, ht₁, List.append_assoc]⟩

/-- Accepting a new URL (inserting it into the visited set and appending
its record) is a `StepOK` step, whatever happens to the robots cache. -/
theorem stepOK_insert (st : CrawlState) (url : String) (c : Int)
    (cache' : List (String × String)) (h : url ∉ st.visited) :
    StepOK st ⟨url :: st.visited, st.urlDepthList ++ [(url, c)], cache'⟩ := by
  refine ⟨fun hinv => ?_, fun x hx => List.mem_cons_of_mem _ hx, [(url, c)], rfl⟩
  obtain ⟨h₁, h₂, h₃⟩ := hinv
  refine ⟨List.nodup_cons.2 ⟨h, h₁⟩, ?_, ?_⟩
  · have hnot : url ∉ st.urlDepthList.map Prod.fst := by
      intro hmem
      obtain ⟨p, hp, hpe⟩ := List.mem_map.1 hmem
      exact h (hpe ▸ h₃ p hp)
    simpa [List.nodup_append, hnot] using h₂
  · intro p hp
    rcases List.mem_append.1 hp with hp' | hp'
    · exact List.mem_cons_of_mem _ (h₃ p hp')
    · simp only [List.mem_singleton] at hp'
      subst hp'
      exact List.mem_cons_self _ _

/-- Folding a `StepOK`-respecting body over a link list is `StepOK`. -/
theorem foldl_stepOK (f : CrawlState → String → CrawlState)
    (hf : ∀ st l, StepOK st (f st l)) :
    ∀ (links : List String) (st : CrawlState),
      StepOK st (links.foldl
        (fun acc link => if link ∈ acc.visited then acc else f acc link) st) := by
  intro links
  induction links with
  | nil => intro st; exact StepOK.refl st
  | cons l rest ih =>
    intro st
    rw [List.foldl_cons]
    by_cases hv : l ∈ st.visited
    · simpa [hv] using ih st
    · simp only [hv, if_false]
      exact (hf st l).trans (ih (f st l))

/-- Every crawl call is a `StepOK` step: it preserves the invariant, only
grows the visited set, and only appends records. -/
theorem crawlFuel_stepOK (env : Env) :
    ∀ (fuel : Nat) (st : CrawlState) (url : String) (depth c : Int),
      StepOK st (crawlFuel env fuel st url depth c) := by
  intro fuel
  induction fuel with
  | zero => intro st url depth c; exact StepOK.refl st
  | succ n ih =>
    intro st url depth c
    by_cases hv : url ∈ st.visited
    · rw [crawlFuel_visited env _ st url depth c hv]; exact StepOK.refl st
    · by_cases hd : depth < c
      · rw [crawlFuel_depth_reject env _ st url depth c hd]; exact StepOK.refl st
      · have hstep : StepOK st
            ⟨url :: st.visited, st.urlDepthList ++ [(url, c)],
              (fetch_robots_txt env.robotsFetch st.cache url).2.1⟩ :=
          stepOK_insert st url c _ hv
        simp only [crawlFuel, hv, hd, if_false]
        split
        · exact hstep
        · exact hstep.trans
            (foldl_stepOK (fun acc link => crawlFuel env n acc link depth (c + 1))
              (fun acc link => ih acc link depth (c + 1)) _ _)

/-! ## Fuel sufficiency: the recursion is bounded by the depth budget -/

/-- Unfolding an accepted call (`url` fresh, depth within bound): the URL
is marked visited and recorded, robots.txt is consulted, and either the
branch stops (robots denial) or the link loop runs at `current_depth + 1`. -/
theorem crawlFuel_accept (env : Env) (fuel : Nat) (st : CrawlState) (url : String)
    (depth c : Int) (hv : url ∉ st.visited) (hd : ¬ depth < c) :
    crawlFuel env (fuel + 1) st url depth c =
      (if (fetch_robots_txt env.robotsFetch st.cache url).1 ≠ "" ∧
          is_allowed_by_robots url (fetch_robots_txt env.robotsFetch st.cache url).1 = false
       then (⟨url :: st.visited, st.urlDepthList ++ [(url, c)],
              (fetch_robots_txt env.robotsFetch st.cache url).2.1⟩ : CrawlState)
       else (scrape_links env url).foldl
          (fun acc link =>
            if link ∈ acc.visited then acc
            else crawlFuel env fuel acc link depth (c + 1))
          ⟨url :: st.visited, st.urlDepthList ++ [(url, c)],
            (fetch_robots_txt env.robotsFetch st.cache url).2.1⟩) := by
  simp only [crawlFuel, hv, hd, if_false]

/-- One more unit of fuel beyond the depth budget `depth + 1 - c` does not
change the crawl result. -/
theorem crawlFuel_succ_eq (env : Env) :
    ∀ (fuel : Nat) (st : CrawlState) (url : String) (depth c : Int),
      (depth + 1 - c).toNat ≤ fuel →
      crawlFuel env (fuel + 1) st url depth c = crawlFuel env fuel st url depth c := by
  intro fuel
  induction fuel with
  | zero =>
    intro st url depth c hc
    have hd : depth < c := by omega
    rw [crawlFuel_depth_reject env 1 st url depth c hd, crawlFuel_zero]
  | succ n ih =>
    intro st url depth c hc
    by_cases hv : url ∈ st.visited
    · rw [crawlFuel_visited env _ st url depth c hv, crawlFuel_visited env _ st url depth c hv]
    · by_cases hd : depth < c
      · rw [crawlFuel_depth_reject env _ st url depth c hd,
          crawlFuel_depth_reject env _ st url depth c hd]
      · rw [crawlFuel_accept env (n + 1) st url depth c hv hd,
          crawlFuel_accept env n st url depth c hv hd]
        split
        · rfl
        · apply List.foldl_ext
          intro acc link _
          by_cases hlv : link ∈ acc.visited
          · simp [hlv]
          · simp only [hlv, if_false]
            exact ih acc link depth (c + 1) (by omega)

/-- Any fuel above the depth budget gives the same crawl result. -/
theorem crawlFuel_add_eq (env : Env) :
    ∀ (k fuel : Nat) (st : CrawlState) (url : String) (depth c : Int),
      (depth + 1 - c).toNat ≤ fuel →
      crawlFuel env (fuel + k) st url depth c = crawlFuel env fuel st url depth c := by
  intro k
  induction k with
  | zero => intro fuel st url depth c _; rfl
  | succ m ih =>
    intro fuel st url depth c h
    have hstep := crawlFuel_succ_eq env (fuel + m) st url depth c
      (le_trans h (Nat.le_add_right _ _))
    calc crawlFuel env (fuel + (m + 1)) st url depth c
        = crawlFuel env ((fuel + m) + 1) st url depth c := by ring_nf
      _ = crawlFuel env (fuel + m) st url depth c := hstep
      _ = crawlFuel env fuel st url depth c := ih fuel st url depth c h

/-! ## Claim theorems -/

/-- C7: `crawl_site` terminates on every finite link graph, cyclic ones
included: the result of the fueled recursion is already reached with
`(depth + 1 - current_depth).toNat` units of fuel — one stack level per
depth step, i.e. recursion depth at most `maxDepth + 1` from the seed —
and any further fuel (any longer allowed recursion) gives the same state,
for every environment, in particular for cyclic link graphs such as
`envCyc`. -/
theorem crawl_terminates_within_depth_budget
    (env : Env) (st : CrawlState) (url : String) (depth c : Int) (fuel : Nat)
    (h : (depth + 1 - c).toNat ≤ fuel) :
    crawlFuel env fuel st url depth c = crawl_site env st url depth c := by
  have h₁ : crawlFuel env fuel st url depth c
      = crawlFuel env ((depth + 1 - c).toNat) st url depth c := by
    have hsplit : fuel = (depth + 1 - c).toNat + (fuel - (depth + 1 - c).toNat) := by omega
    rw [hsplit]
    exact crawlFuel_add_eq env _ _ st url depth c le_rfl
  have h₂ : crawlFuel env ((depth + 1 - c).toNat + 1) st url depth c
      = crawlFuel env ((depth + 1 - c).toNat) st url depth c :=
    crawlFuel_add_eq env 1 _ st url depth c le_rfl
  rw [crawl_site, h₁, h₂]

/-- Witness for C7: on the cyclic two-page site `envCyc` (A links to B, B
links back to A) with `maxDepth = 1`, two units of fuel — recursion depth
`maxDepth + 1` — already produce the final crawl state. -/
theorem crawl_terminates_within_depth_budget_witness :
    crawlFuel envCyc 2 initState "http://h/a" 1 0
      = crawl_site envCyc initState "http://h/a" 1 :=
  crawl_terminates_within_depth_budget envCyc initState "http://h/a" 1 0 2 (by decide)

/-- C10: a call rejected by the depth check (`current_depth > depth`)
leaves the whole crawl state unchanged — nothing is added to the visited
set or the record list — and the same URL, not yet visited, is still
accepted and recorded when reached later at a depth within the bound. -/
theorem depth_rejected_call_leaves_state_unchanged :
    (∀ (env : Env) (st : CrawlState) (url : String) (depth c : Int),
      depth < c → crawl_site env st url depth c = st) ∧
    (∀ (env : Env) (st : CrawlState) (url : String) (depth c : Int),
      url ∉ st.visited → c ≤ depth →
      (url, c) ∈ (crawl_site env st url depth c).urlDepthList) := by
  constructor
  · intro env st url depth c h
    rw [crawl_site]
    exact crawlFuel_depth_reject env _ st url depth c h
  · intro env st url depth c hv hc
    rw [crawl_site, crawlFuel_accept env _ st url depth c hv (not_lt.2 hc)]
    have hmem : (url, c) ∈ st.urlDepthList ++ [(url, c)] := by simp
    split
    · exact hmem
    · obtain ⟨-, -, t, ht⟩ :=
        foldl_stepOK (fun acc link => crawlFuel env _ acc link depth (c + 1))
          (fun acc link => crawlFuel_stepOK env _ acc link depth (c + 1))
          (scrape_links env url)
          ⟨url :: st.visited, st.urlDepthList ++ [(url, c)],
            (fetch_robots_txt env.robotsFetch st.cache url).2.1⟩
      rw [ht]
      exact List.mem_append_left _ hmem

/-- Witness for C10: with the cyclic site, a call on a fresh URL at
`current_depth = 1 > depth = 0` returns the state untouched. -/
theorem depth_rejected_call_leaves_state_unchanged_witness :
    crawl_site envCyc initState "http://h/a" 0 1 = initState :=
  depth_rejected_call_leaves_state_unchanged.1 envCyc initState "http://h/a" 0 1 (by decide)

/-- C8 counterexample: no up-front validation exists.  On the cyclic site
(whose seed has outbound links) a crawl with the invalid depth `-1`
returns normally with the state — visited set, record list, robots cache —
exactly as it started: an empty result with no error, which is precisely
the behaviour the claim says is ruled out.  (`crawl_site` is a total
function into `CrawlState`; the source has no validation or fault path —
`crawl_site` silently returns and `main` passes its constants straight
through.) -/
theorem negative_depth_no_error_counterexample :
    crawl_site envCyc initState "http://h/a" (-1) = initState := by decide

/-- C8 amended: an invalid (negative) max depth is not detected: every
crawl with `depth < 0`, over any environment, returns its state unchanged
— silently, with no network activity and no fault surfaced to the caller;
an invalid seed URL is likewise never checked (the entry conditions never
inspect the URL's shape, as the arbitrary `url` here shows). -/
theorem negative_depth_returns_state_unchanged
    (env : Env) (st : CrawlState) (url : String) (depth : Int) (h : depth < 0) :
    crawl_site env st url depth = st := by
  rw [crawl_site]
  exact crawlFuel_depth_reject env _ st url depth 0 (by omega)

/-- Witness for the amended C8: depth `-5` on the cyclic site. -/
theorem negative_depth_returns_state_unchanged_witness :
    crawl_site envCyc initState "http://h/a" (-5) = initState :=
  negative_depth_returns_state_unchanged envCyc initState "http://h/a" (-5) (by decide)

/-- C2: the depth bound is inclusive.  A fresh URL accepted at
`current_depth = depth` is recorded with that depth and marked visited,
but contributes nothing else: every extracted link is rejected by the
depth check at `depth + 1 > depth`, so the only state change besides the
robots-cache update is that one record.  In particular with
`maxDepth = 0` the output holds exactly the seed at depth 0. -/
theorem crawl_depth_bound_inclusive :
    (∀ (env : Env) (st : CrawlState) (url : String) (depth : Int),
      url ∉ st.visited →
      crawl_site env st url depth depth =
        ⟨url :: st.visited, st.urlDepthList ++ [(url, depth)],
          (fetch_robots_txt env.robotsFetch st.cache url).2.1⟩) ∧
    (∀ (env : Env) (seed : String),
      (crawl_site env initState seed 0).urlDepthList = [(seed, 0)]) := by
  have main : ∀ (env : Env) (st : CrawlState) (url : String) (depth : Int),
      url ∉ st.visited →
      crawl_site env st url depth depth =
        ⟨url :: st.visited, st.urlDepthList ++ [(url, depth)],
          (fetch_robots_txt env.robotsFetch st.cache url).2.1⟩ := by
    intro env st url depth hv
    have hfuel : (depth + 1 - depth).toNat + 1 = 1 + 1 := by omega
    rw [crawl_site, hfuel,
      crawlFuel_accept env 1 st url depth depth hv (lt_irrefl depth)]
    split
    · rfl
    · exact foldl_depth_reject env 1 depth (depth + 1) (by omega) _ _
  refine ⟨main, fun env seed => ?_⟩
  rw [main env initState seed 0 (by simp [initState])]
  simp [initState]

/-- Witness for C2: on the cyclic site with `maxDepth = 0`, the fresh seed
(at `current_depth = maxDepth = 0`) is recorded at depth 0 and nothing
else changes, even though the seed page has a link. -/
theorem crawl_depth_bound_inclusive_witness :
    crawl_site envCyc initState "http://h/a" 0 0
      = ⟨["http://h/a"], [("http://h/a", 0)], []⟩ :=
  crawl_depth_bound_inclusive.1 envCyc initState "http://h/a" 0 (by decide)

/-- C1: in one run from a fresh state, `crawl_site` visits and records
every URL at most once: no URL appears twice in the accumulated
`url_depth_list` and no URL is inserted twice into `visited_urls` —
because a URL is inserted into the visited set the moment it is first
accepted (before any fetch or robots check) and the entry check
`if url in visited_urls: return` blocks any re-expansion. -/
theorem crawl_visits_each_url_at_most_once
    (env : Env) (seed : String) (depth : Int) (u : String) :
    ((crawl_site env initState seed depth).urlDepthList.map Prod.fst).count u ≤ 1 ∧
    (crawl_site env initState seed depth).visited.count u ≤ 1 := by
  have hinv : CrawlInv initState := by
    refine ⟨List.nodup_nil, List.nodup_nil, ?_⟩
    intro p hp
    simp [initState] at hp
  have h := (crawlFuel_stepOK env ((depth + 1 - 0).toNat + 1) initState seed depth 0).1 hinv
  simp only [crawl_site]
  exact ⟨List.nodup_iff_count_le_one.1 h.2.1 u, List.nodup_iff_count_le_one.1 h.1 u⟩

/-- C4: a URL accepted into the crawl whose robots policy denies it, or
whose page fetch fails, is still marked visited and still appended to the
output with its depth — the record and visited-set insertion happen before
the robots check and the fetch — but none of its links are followed: the
call returns exactly the state after the record and robots-cache update,
and (being an ordinary return) the rest of the crawl continues. -/
theorem denied_or_failed_url_recorded_not_expanded
    (env : Env) (st : CrawlState) (url : String) (depth c : Int)
    (hv : url ∉ st.visited) (hc : c ≤ depth)
    (hstop :
      ((fetch_robots_txt env.robotsFetch st.cache url).1 ≠ "" ∧
        is_allowed_by_robots url (fetch_robots_txt env.robotsFetch st.cache url).1 = false)
      ∨ env.fetchPage url = none) :
    crawl_site env st url depth c =
      ⟨url :: st.visited, st.urlDepthList ++ [(url, c)],
        (fetch_robots_txt env.robotsFetch st.cache url).2.1⟩ := by
  rw [crawl_site, crawlFuel_accept env _ st url depth c hv (not_lt.2 hc)]
  rcases hstop with hdeny | hfail
  · rw [if_pos hdeny]
  · have hempty : scrape_links env url = [] := by
      unfold scrape_links
      rw [hfail]
    split
    · rfl
    · rw [hempty]
      rfl

/-- Witness for C4: on `envDeny` the URL `http://h/p/x` is denied by the
fetched robots.txt (`Disallow: /p`), yet the crawl records it at depth 0,
marks it visited, caches the robots.txt, and follows none of its links. -/
theorem denied_or_failed_url_recorded_not_expanded_witness :
    crawl_site envDeny initState "http://h/p/x" 0 =
      ⟨["http://h/p/x"], [("http://h/p/x", 0)],
        [("http://h", "User-agent: *\nDisallow: /p")]⟩ :=
  denied_or_failed_url_recorded_not_expanded envDeny initState "http://h/p/x" 0 0
    (by decide) (by decide) (Or.inl (by decide))

/-- C3: the robots allow/deny decision checks the collected allow-prefixes
first — any match allows; otherwise any matching disallow-prefix denies;
otherwise the default is allow.  In particular, with `Allow: /public` and
`Disallow: /` the path `/public/x` is allowed through the full
`is_allowed_by_robots` pipeline. -/
theorem robots_allow_checked_before_disallow :
    (∀ (path : String) (dis al : List String),
      ((∃ a ∈ al, pyStartsWith path a = true) → robotsDecision path dis al = true) ∧
      ((∀ a ∈ al, pyStartsWith path a = false) →
        (∃ d ∈ dis, pyStartsWith path d = true) → robotsDecision path dis al = false) ∧
      ((∀ a ∈ al, pyStartsWith path a = false) →
        (∀ d ∈ dis, pyStartsWith path d = false) → robotsDecision path dis al = true)) ∧
    is_allowed_by_robots "http://h/public/x" "User-agent: *\nAllow: /public\nDisallow: /"
      = true := by
  constructor
  · intro path dis al
    refine ⟨fun hal => ?_, fun hnal hdis => ?_, fun hnal hndis => ?_⟩
    · have h : al.any (fun allowed => pyStartsWith path allowed) = true :=
        List.any_eq_true.2 (by simpa using hal)
      simp [robotsDecision, h]
    · have h : al.any (fun allowed => pyStartsWith path allowed) = false := by
        simp only [List.any_eq_false]
        intro a ha
        simp [hnal a ha]
      have h₂ : dis.any (fun disallowed => pyStartsWith path disallowed) = true :=
        List.any_eq_true.2 (by simpa using hdis)
      simp [robotsDecision, h, h₂]
    · have h : al.any (fun allowed => pyStartsWith path allowed) = false := by
        simp only [List.any_eq_false]
        intro a ha
        simp [hnal a ha]
      have h₂ : dis.any (fun disallowed => pyStartsWith path disallowed) = false := by
        simp only [List.any_eq_false]
        intro d hd
        simp [hndis d hd]
      simp [robotsDecision, h, h₂]
  · decide

/-- Witness for C3: the decision on path `/public/x` with collected
disallow-prefixes `["/"]` and allow-prefixes `["/public"]` is ALLOW. -/
theorem robots_allow_checked_before_disallow_witness :
    robotsDecision "/public/x" ["/"] ["/public"] = true :=
  (robots_allow_checked_before_disallow.1 "/public/x" ["/"] ["/public"]).1
    ⟨"/public", by decide, by decide⟩

/-- C6 counterexample: the collected value is NOT "the substring of the
line after the first colon, trimmed".  For the line `Disallow: /a:b`
(whose value itself holds a colon) the parser collects `/a` —
`line.split(":")[1]` is the text between the first and second colons —
while the substring after the first colon, trimmed, is `/a:b`. -/
theorem robots_value_second_colon_counterexample :
    (robotsParseLoop ["User-agent: *", "Disallow: /a:b"] false [] []).2.1 = ["/a"] ∧
    pyStrip (afterFirstColon "Disallow: /a:b") = "/a:b" ∧
    ("/a" : String) ≠ "/a:b" := by decide

/-- C6 amended: the parser processes the text line by line after stripping
each line; once a stripped line starting with the case-sensitive literal
`User-agent: *` has been seen the applicable flag is set, and from a state
where it is set it is never reset: every subsequent `Disallow:`/`Allow:`
line is collected (in the parser's branch order), each collected value
being the text strictly between the line's first and second colons,
trimmed (`line.split(":")[1].strip()`) — not everything after the first
colon. -/
theorem robots_parser_wildcard_group_collects_all :
    (∀ (lines : List String) (dis al : List String),
      robotsParseLoop lines true dis al =
        (true, dis ++ lines.filterMap disallowValue, al ++ lines.filterMap allowValue)) ∧
    (∀ (line : String) (lines : List String) (ua : Bool) (dis al : List String),
      pyStartsWith (pyStrip line) "User-agent: *" = true →
      robotsParseLoop (line :: lines) ua dis al = robotsParseLoop lines true dis al) := by
  constructor
  · intro lines
    induction lines with
    | nil => intro dis al; simp [robotsParseLoop]
    | cons line rest ih =>
      intro dis al
      by_cases hua : pyStartsWith (pyStrip line) "User-agent: *" = true
      · simp only [robotsParseLoop, hua, if_true, ih, disallowValue, allowValue,
          List.filterMap_cons]
      · have hua' : pyStartsWith (pyStrip line) "User-agent: *" = false := by
          simpa using hua
        by_cases hdis : pyStartsWith (pyStrip line) "Disallow:" = true
        · simp only [robotsParseLoop, hua', hdis, Bool.false_eq_true, if_false,
            Bool.true_and, if_true, ih, disallowValue, allowValue, List.filterMap_cons]
          simp [hua', hdis, List.append_assoc]
        · have hdis' : pyStartsWith (pyStrip line) "Disallow:" = false := by
            simpa using hdis
          by_cases hal : pyStartsWith (pyStrip line) "Allow:" = true
          · simp only [robotsParseLoop, hua', hdis', Bool.false_eq_true, if_false,
              Bool.false_and, Bool.true_and, hal, if_true, ih, disallowValue, allowValue,
              List.filterMap_cons]
            simp [hua', hdis', hal, List.append_assoc]
          · have hal' : pyStartsWith (pyStrip line) "Allow:" = false := by
              simpa using hal
            simp only [robotsParseLoop, hua', hdis', hal', Bool.false_eq_true, if_false,
              Bool.false_and, ih, disallowValue, allowValue, List.filterMap_cons]
  · intro line lines ua dis al hua
    simp [robotsParseLoop, hua]

/-- Witness for C6 (amended): seeing `User-agent: *` switches the loop to
the applicable state, and from there the following `Disallow:` lines are
all collected with their between-colons values. -/
theorem robots_parser_wildcard_group_collects_all_witness :
    robotsParseLoop ["User-agent: *", "Disallow: /a", "User-agent: other", "Disallow: /b"]
        false [] []
      = robotsParseLoop ["Disallow: /a", "User-agent: other", "Disallow: /b"] true [] [] ∧
    robotsParseLoop ["Disallow: /a", "User-agent: other", "Disallow: /b"] true [] []
      = (true, [] ++ ["/a", "/b"], [] ++ []) :=
  ⟨robots_parser_wildcard_group_collects_all.2 "User-agent: *"
      ["Disallow: /a", "User-agent: other", "Disallow: /b"] false [] [] (by decide),
    by
      rw [robots_parser_wildcard_group_collects_all.1
        ["Disallow: /a", "User-agent: other", "Disallow: /b"] [] []]
      decide⟩

/-- C5 counterexample: a failed robots fetch is NOT cached, so the claim
"at most one network GET of robots.txt per origin per run" fails.  On a
network where every robots GET fails, the first call for the origin
`http://h` issues one GET, caches nothing, and the second call for the
same origin — on the cache state the first call returned — issues a
second GET instead of being answered from the cache. -/
theorem robots_failure_not_cached_counterexample :
    (fetch_robots_txt netFail [] "http://h/p").2.2 = 1 ∧
    (fetch_robots_txt netFail [] "http://h/p").2.1 = [] ∧
    (fetch_robots_txt netFail (fetch_robots_txt netFail [] "http://h/p").2.1
      "http://h/p").2.2 = 1 := by decide

/-- C5 amended: per origin, a cached entry answers every later call with
zero network GETs, and a SUCCESSFUL first fetch stores its text so the
next call for the same origin is a cache hit with zero network GETs; a
FAILED fetch, however, returns the permissive `""` without caching it, so
a later call for that origin issues another GET. -/
theorem robots_cache_idempotent_after_success
    (net : String → Option String) (cache : List (String × String)) (url : String) :
    (∀ txt, cacheLookup cache (baseUrlOf url) = some txt →
      fetch_robots_txt net cache url = (txt, cache, 0)) ∧
    (∀ txt, cacheLookup cache (baseUrlOf url) = none → net (baseUrlOf url) = some txt →
      fetch_robots_txt net cache url = (txt, (baseUrlOf url, txt) :: cache, 1) ∧
      fetch_robots_txt net ((baseUrlOf url, txt) :: cache) url = (txt, (baseUrlOf url, txt) :: cache, 0)) ∧
    (cacheLookup cache (baseUrlOf url) = none → net (baseUrlOf url) = none →
      fetch_robots_txt net cache url = ("", cache, 1)) := by
    refine ⟨fun txt hhit => ?_, fun txt hmiss hnet => ⟨?_, ?_⟩, fun hmiss hnet => ?_⟩
    · simp [fetch_robots_txt, hhit]
    · simp [fetch_robots_txt, hmiss, hnet]
    · simp [fetch_robots_txt, cacheLookup]
    · simp [fetch_robots_txt, hmiss, hnet]

/-- Witness for the amended C5: on a network serving a robots.txt for
`http://h`, the first call fetches and caches it and the second call for
the same origin is answered from the cache with zero network GETs. -/
theorem robots_cache_idempotent_after_success_witness :
    fetch_robots_txt netOk [] "http://h/p"
      = ("User-agent: *", [("http://h", "User-agent: *")], 1) ∧
    fetch_robots_txt netOk [("http://h", "User-agent: *")] "http://h/p"
      = ("User-agent: *", [("http://h", "User-agent: *")], 0) :=
  (robots_cache_idempotent_after_success netOk [] "http://h/p").2.1
    "User-agent: *" (by decide) (by decide)

/-- C9 counterexample: the same-origin filter of `scrape_links` compares
only the netloc (host), not the scheme.  A page at `https://example.com/`
holding the absolute link `http://example.com/x` — same host, different
scheme — has that link returned, so not "every returned absolute URL
shares both scheme and host with the base URL". -/
theorem scrape_links_scheme_mismatch_counterexample :
    "http://example.com/x" ∈ scrape_links envX "https://example.com/" ∧
    (urlparse "http://example.com/x").scheme ≠ (urlparse "https://example.com/").scheme := by
  decide

/-- C9 amended: every link returned by `scrape_links` (after resolving
relative references with `urljoin`) has the same netloc — host and port —
as the page URL it was found on; the scheme is not compared. -/
theorem scrape_links_same_netloc
    (env : Env) (url : String) (link : String) (h : link ∈ scrape_links env url) :
    (urlparse link).netloc = (urlparse url).netloc := by
  unfold scrape_links at h
  cases hf : env.fetchPage url with
  | none => rw [hf] at h; simp at h
  | some hrefs =>
    rw [hf] at h
    have hp := (List.mem_filter.1 h).2
    exact of_decide_eq_true (by simpa using hp)

/-- Witness for the amended C9: the cross-scheme link returned on `envX`
still has the base URL's netloc. -/
theorem scrape_links_same_netloc_witness :
    (urlparse "http://example.com/x").netloc = (urlparse "https://example.com/").netloc :=
  scrape_links_same_netloc envX "https://example.com/" "http://example.com/x" (by decide)
